import Mathlib

set_option maxHeartbeats 1000000

namespace Karpacz

/-! Shallow embedding of the request-processing core of the project-karpacz /
ferron HTTP server: `src/ferron/src/request_handler.rs`,
`src/project-karpacz/src/modules/x_forwarded_for.rs` and the listener-address
computation of `src/project-karpacz/src/server.rs`. -/

/-- Header maps, modelling hyper HeaderMap as an association list. Header
names are kept in their canonical lowercase form (hyper normalizes names on
construction, so every name stored in a HeaderMap is lowercase). -/
abbrev HeaderMap := List (String × String)

/-- HeaderMap::contains_key. -/
def headersContainsKey (hm : HeaderMap) (k : String) : Bool :=
  hm.any (fun p => p.1 == k)

/-- HeaderMap::get, the first value mapped to a name. -/
def headersGet (hm : HeaderMap) (k : String) : Option String :=
  (hm.find? (fun p => p.1 == k)).map Prod.snd

/-- HeaderMap::insert: drops any existing values for the name and stores the
new one. -/
def headersInsert (hm : HeaderMap) (k v : String) : HeaderMap :=
  hm.filter (fun p => !(p.1 == k)) ++ [(k, v)]

/-- Validity of a character of a header name in canonical (lowercase) form,
per the token characters accepted by hyper HeaderName. -/
def isHeaderNameChar (c : Char) : Bool :=
  (c.isLower || c.isDigit) ||
    (c = '!' || c = '#' || c = '$' || c = '%' || c = '&' || c = '\x27' ||
     c = '*' || c = '+' || c = '-' || c = '.' || c = '^' || c = '_' ||
     c = '\x60' || c = '|' || c = '~')

/-- HeaderName::from_str succeeds, for names in canonical form. -/
def headerNameOk (s : String) : Bool :=
  (!(s == "")) && s.data.all isHeaderNameChar

/-- HeaderValue::from_str succeeds: visible ASCII, spaces and tabs. -/
def headerValueOk (s : String) : Bool :=
  s.data.all (fun c => c = '\t' || (32 ≤ c.toNat && c.toNat ≤ 126))

theorem find?_filter_of_imp {α : Type} (p q : α → Bool) (l : List α)
    (h : ∀ x, p x = true → q x = true) :
    (l.filter q).find? p = l.find? p := by
  induction l with
  | nil => simp
  | cons a t ih =>
    by_cases hq : q a
    · by_cases hp : p a <;> simp [List.filter_cons, hq, hp, ih]
    · have hp : p a = false := by
        cases hpa : p a
        · rfl
        · exact absurd (h a hpa) (by simp [hq])
      simp [List.filter_cons, hq, hp, ih]

theorem any_filter_of_imp {α : Type} (p q : α → Bool) (l : List α)
    (h : ∀ x, p x = true → q x = true) :
    (l.filter q).any p = l.any p := by
  induction l with
  | nil => simp
  | cons a t ih =>
    by_cases hq : q a
    · simp [List.filter_cons, hq, ih]
    · have hp : p a = false := by
        cases hpa : p a
        · rfl
        · exact absurd (h a hpa) (by simp [hq])
      simp [List.filter_cons, hq, hp, ih]

theorem find?_filter_not_key (hm : HeaderMap) (k : String) :
    (hm.filter (fun p => !(p.1 == k))).find? (fun p => p.1 == k) = none := by
  induction hm with
  | nil => simp
  | cons a t ih =>
    by_cases hp : a.1 == k
    · simp [List.filter_cons, hp, ih]
    · simp [List.filter_cons, hp, ih]

theorem headersGet_insert_self (hm : HeaderMap) (k v : String) :
    headersGet (headersInsert hm k v) k = some v := by
  unfold headersGet headersInsert
  simp [find?_filter_not_key]

theorem headersGet_insert_ne (hm : HeaderMap) (k v k2 : String) (hne : k ≠ k2) :
    headersGet (headersInsert hm k v) k2 = headersGet hm k2 := by
  unfold headersGet headersInsert
  have hlast : ((k, v).1 == k2) = false := by simp [hne]
  rw [List.find?_append]
  rw [find?_filter_of_imp (fun p => p.1 == k2) (fun p => !(p.1 == k)) hm
    (by
      intro x hx
      simp at hx ⊢
      rw [hx]
      exact fun hc => hne hc.symm)]
  simp [hlast]

theorem headersContainsKey_insert_ne (hm : HeaderMap) (k v k2 : String)
    (hne : k ≠ k2) :
    headersContainsKey (headersInsert hm k v) k2 = headersContainsKey hm k2 := by
  unfold headersContainsKey headersInsert
  rw [List.any_append]
  rw [any_filter_of_imp (fun p => p.1 == k2) (fun p => !(p.1 == k)) hm
    (by
      intro x hx
      simp at hx ⊢
      rw [hx]
      exact fun hc => hne hc.symm)]
  simp [hne]

theorem headersContainsKey_of_get (hm : HeaderMap) (k w : String) :
    headersGet hm k = some w → headersContainsKey hm k = true := by
  unfold headersGet headersContainsKey
  induction hm with
  | nil => intro h; simp at h
  | cons a t ih =>
    intro h
    by_cases hp : a.1 == k
    · simp [hp]
    · have hb : (a.1 == k) = false := by simpa using hp
      simp only [List.find?_cons, hb] at h
      simp only [List.any_cons, hb, Bool.false_or]
      exact ih h

/-- A YAML scalar as far as the server code inspects one: yaml_rust2 values
queried through as_i64, as_str, as_bool and is_null. -/
inductive Yv where
  | null : Yv
  | int : Int → Yv
  | str : String → Yv
  | bool : Bool → Yv
deriving DecidableEq

/-- Yaml::as_i64. -/
def Yv.asI64 : Yv → Option Int
  | .int n => some n
  | _ => none

/-- Yaml::as_str. -/
def Yv.asStr : Yv → Option String
  | .str s => some s
  | _ => none

/-- Yaml::as_bool. -/
def Yv.asBool : Yv → Option Bool
  | .bool b => some b
  | _ => none

/-- Yaml::is_null. -/
def Yv.isNull : Yv → Bool
  | .null => true
  | _ => false

/-- std::net::SocketAddr: an IP address (kept in its textual canonical form)
and a port. -/
structure SockAddr where
  ip : String
  port : Nat
deriving DecidableEq

/-- ferron_common::SocketData: the per-request connection data; remote_addr
may be rewritten by a handler outcome. -/
structure SocketData where
  remote_addr : SockAddr
  local_addr : SockAddr
  encrypted : Bool
deriving DecidableEq

/-- hyper::Version as far as the pipeline inspects it. -/
inductive HttpVersion where
  | http09 | http10 | http11 | h2 | h3
deriving DecidableEq

/-- The request head as inspected by the pipeline: method, version, the
URI host and authority components, the upgrade-request classification
(hyper_tungstenite::is_upgrade_request, an external check on the
Connection/Upgrade headers, carried as a field), and the headers. -/
structure Request where
  method : String
  version : HttpVersion
  uriHost : Option String
  uriAuthority : Option String
  isUpgradeRequest : Bool
  headers : HeaderMap
deriving DecidableEq

/-- The response body as far as the claims observe it: an empty body, the
default error-page template, a streamed file, or an opaque handler body
identified by a tag. -/
inductive BodyKind where
  | empty : BodyKind
  | defaultPage : Nat → Option String → BodyKind
  | file : String → BodyKind
  | handlerBody : Nat → BodyKind
deriving DecidableEq

/-- hyper::Response head: status, headers, body. -/
structure Response where
  status : Nat
  headers : HeaderMap
  body : BodyKind
deriving DecidableEq

/-- An errorPages sequence element: a YAML mapping read at keys scode and
path. -/
structure ErrorPageEntry where
  scode : Yv
  path : Yv
deriving DecidableEq

/-- The per-request combined configuration, restricted to the options the
embedded code reads (ServerConfigRoot::get on the respective keys). -/
structure ServerConfig where
  serverAdministratorEmail : Option String
  errorPages : Option (List ErrorPageEntry)
  customHeaders : Option (List (Yv × Yv))
  enableIPSpoofing : Option Bool
deriving DecidableEq

/-- The filesystem as generate_error_response touches it: whether
fs::File::open succeeds on a path, and the stat length File::metadata
reports (none models a metadata error). -/
structure FileSystem where
  openOk : String → Bool
  metadataLen : String → Option Nat

/-- Modelled from the spec: SERVER_SOFTWARE, the fixed product token from
ferron_res::server_software (that file is not under src/). Claims depend
only on it being a fixed valid header value. -/
def SERVER_SOFTWARE : String := "Project Karpacz"

/-- Modelled from the spec: generate_default_error_page from
ferron_util::error_pages (not under src/) builds a default HTML body from
a built-in template parameterized by serverAdministratorEmail. Only its
length is observable in the embedded code. -/
def generate_default_error_page (statusCode : Nat) (email : Option String) : String :=
  "<html><body><h1>Error " ++ toString statusCode ++ "</h1>" ++
    (match email with
     | some e => "<p>Contact the server administrator at " ++ e ++ "</p>"
     | none => "") ++ "</body></html>"

/-- The errorPages scan of generate_error_response
(src/ferron/src/request_handler.rs lines 45-83): for each entry, read scode
as i64, convert through u16 and StatusCode::from_u16 (valid codes are
100..=999), skip on mismatch, read path, try fs::File::open (skip the entry
on failure), then take the metadata length (none on a metadata error). -/
def findErrorPage (fs : FileSystem) (statusCode : Nat) :
    List ErrorPageEntry → Option (String × Option Nat)
  | [] => none
  | e :: rest =>
    match e.scode.asI64 with
    | none => findErrorPage fs statusCode rest
    | some n =>
      if 0 ≤ n ∧ n < 65536 then
        if 100 ≤ n ∧ n < 1000 then
          if n = (statusCode : Int) then
            match e.path.asStr with
            | some p =>
              if fs.openOk p then some (p, fs.metadataLen p)
              else findErrorPage fs statusCode rest
            | none => findErrorPage fs statusCode rest
          else findErrorPage fs statusCode rest
        else findErrorPage fs statusCode rest
      else findErrorPage fs statusCode rest

/-- The errorPages scan entry point: config.get("errorPages").as_vec()
guarding the loop of generate_error_response. -/
def errorPagesLookup (fs : FileSystem) (statusCode : Nat)
    (config : ServerConfig) : Option (String × Option Nat) :=
  match config.errorPages with
  | some pagesList => findErrorPage fs statusCode pagesList
  | none => none

/-- The extra headers copied onto a synthesized error response: every
header except Content-Type and Content-Length (lines 87-94). -/
def errorExtraHeaders (headers : Option HeaderMap) : HeaderMap :=
  match headers with
  | none => []
  | some hs =>
    hs.filter (fun p => !(p.1 == "content-type") && !(p.1 == "content-length"))

/-- generate_error_response (src/ferron/src/request_handler.rs lines
30-102): default template body with its length as Content-Length, replaced
by the first matching errorPages file that opens (with its stat length as
Content-Length, or no Content-Length when stat fails); extra headers are
copied except Content-Type and Content-Length, then Content-Length (when
known) and Content-Type: text/html are appended by the response builder. -/
def generate_error_response (fs : FileSystem) (statusCode : Nat)
    (config : ServerConfig) (headers : Option HeaderMap) : Response :=
  let bareLen := (generate_default_error_page statusCode
    config.serverAdministratorEmail).length
  let bodyAndLen : BodyKind × Option Nat :=
    match errorPagesLookup fs statusCode config with
    | some (p, lenOpt) => (BodyKind.file p, lenOpt)
    | none => (BodyKind.defaultPage statusCode config.serverAdministratorEmail,
               some bareLen)
  let hdrs1 : HeaderMap :=
    match bodyAndLen.2 with
    | some cl => errorExtraHeaders headers ++ [("content-length", toString cl)]
    | none => errorExtraHeaders headers
  { status := statusCode,
    headers := hdrs1 ++ [("content-type", "text/html")],
    body := bodyAndLen.1 }

/-- One customHeaders entry applied to a response HeaderMap
(src/ferron/src/request_handler.rs, the repeated merge loop, e.g. lines
1088-1103): both the name and value must be YAML strings, the name must not
already be present, and HeaderValue::from_str / HeaderName::from_str must
succeed; only then the header is inserted. -/
def insertCustomHeader (hm : HeaderMap) (nameY valY : Yv) : HeaderMap :=
  match nameY.asStr with
  | none => hm
  | some name =>
    match valY.asStr with
    | none => hm
    | some val =>
      if headersContainsKey hm name then hm
      else if headerValueOk val && headerNameOk name then headersInsert hm name val
      else hm

/-- The whole customHeaders merge loop over a response HeaderMap. -/
def mergeCustomHeaders (customHeaders : Option (List (Yv × Yv)))
    (hm : HeaderMap) : HeaderMap :=
  match customHeaders with
  | none => hm
  | some entries => entries.foldl (fun acc p => insertCustomHeader acc p.1 p.2) hm

/-- The unconditional Server header insertion performed after the
customHeaders merge on every emission path (guarded only by
HeaderValue::from_str succeeding on SERVER_SOFTWARE). -/
def insertServerHeader (hm : HeaderMap) : HeaderMap :=
  if headerValueOk SERVER_SOFTWARE then headersInsert hm "server" SERVER_SOFTWARE
  else hm

/-- The finalization applied to a response before it leaves the pipeline
(or before post-processing starts): merge customHeaders where the name is
absent, then set the Server header. -/
def finalizeResponse (config : ServerConfig) (resp : Response) : Response :=
  { resp with
    headers := insertServerHeader (mergeCustomHeaders config.customHeaders resp.headers) }

/-- ferron_common::ResponseData split by into_parts: the outcome a handler
returns on the forward pass. parallel_task records whether a fire-and-forget
future was attached (the pipeline only tokio::spawns it). -/
structure HandlerOutcome where
  request : Option Request
  auth_user : Option String
  response : Option Response
  status : Option Nat
  headers : Option HeaderMap
  new_remote_address : Option SockAddr
  parallel_task : Bool
deriving DecidableEq

/-- A ServerModuleHandlers instance: capability predicates and the four
entry points the embedded pipeline invokes. Errors (Box of dyn Error) are
collapsed to a message string. The ghost field id labels the handler so
that invocation order is observable in theorems. -/
structure Handler where
  id : Nat
  does_connect_proxy_requests : Bool
  does_websocket_requests : ServerConfig → SocketData → Bool
  request_handler : Request → ServerConfig → SocketData → Except String HandlerOutcome
  proxy_request_handler : Request → ServerConfig → SocketData → Except String HandlerOutcome
  response_modifying_handler : Response → Except String Response
  proxy_response_modifying_handler : Response → Except String Response

/-- Result of the post-processing (LIFO) loop: the response it ends with,
the ids of the handlers it invoked in order, and whether an invocation
failed (collapsing to a synthesized 500). -/
structure PostResult where
  response : Response
  trace : List Nat
  collapsed : Bool
deriving DecidableEq

/-- The post-processing loop (src/ferron/src/request_handler.rs lines
1109-1186 and its copies): pop executed handlers (head of the stack list =
most recently pushed), invoke proxy_response_modifying_handler or
response_modifying_handler; on an error, log, synthesize a 500 with the
call site's extra headers, merge customHeaders, set Server and return
immediately, abandoning the rest of the stack. -/
def postProcessLoop (fs : FileSystem) (config : ServerConfig) (isProxy : Bool)
    (extraHeaders : Option HeaderMap) :
    List Handler → Response → PostResult
  | [], resp => ⟨resp, [], false⟩
  | h :: rest, resp =>
    match (if isProxy then h.proxy_response_modifying_handler resp
           else h.response_modifying_handler resp) with
    | .ok r =>
      let pr := postProcessLoop fs config isProxy extraHeaders rest r
      ⟨pr.response, h.id :: pr.trace, pr.collapsed⟩
    | .error _ =>
      ⟨finalizeResponse config (generate_error_response fs 500 config extraHeaders),
       [h.id], true⟩

/-- The output of the embedded dispatch phase of request_handler_wrapped:
the response handed to the connection driver plus ghost instrumentation
(forward/backward invocation traces and branch flags) that makes ordering
claims statable. -/
structure PipelineResult where
  response : Response
  forwardTrace : List Nat
  backwardTrace : List Nat
  spawnedConnect : Bool
  spawnedWebsocket : Bool
  postProcessed : Bool
  collapsed : Bool
deriving DecidableEq

/-- The shared tail of every chain branch that reaches post-processing:
finalize the branch response (customHeaders merge + Server header, lines
1087-1106 and its copies), run the LIFO loop over the executed stack, and
package the result. -/
def respondPhase (fs : FileSystem) (config : ServerConfig) (isProxy : Bool)
    (extraHeaders : Option HeaderMap) (stack : List Handler) (fwd : List Nat)
    (resp : Response) : PipelineResult :=
  let pr := postProcessLoop fs config isProxy extraHeaders stack
    (finalizeResponse config resp)
  ⟨pr.response, fwd, pr.trace, false, false, true, pr.collapsed⟩

/-- The main chain walk of request_handler_wrapped (lines 899-1624, the
non-CONNECT branch). Arguments: current socket data, current request,
latest auth data, executed-handler stack (head = last pushed), forward
trace so far, remaining handlers. Mirrors: the per-iteration WebSocket
dispatch, the forward invocation (proxy or plain), pushing the handler on
the executed stack, and the response > status > request > break precedence
on the outcome; chain exhaustion and break both synthesize a 404. -/
def chainWalk (fs : FileSystem) (config : ServerConfig) (isProxy isWebsocket : Bool)
    (upgrade : Request → Except String Response) :
    SocketData → Request → Option String → List Handler → List Nat →
    List Handler → PipelineResult
  | _sock, _req, _auth, executed, fwd, [] =>
    respondPhase fs config isProxy none executed fwd
      (generate_error_response fs 404 config none)
  | sock, req, _auth, executed, fwd, h :: rest =>
    if isWebsocket && h.does_websocket_requests config sock then
      match upgrade req with
      | .ok resp =>
        ⟨finalizeResponse config resp, fwd, [], false, true, false, false⟩
      | .error _ =>
        ⟨finalizeResponse config
          { status := 500, headers := [],
            body := BodyKind.defaultPage 500 none },
         fwd, [], false, false, false, false⟩
    else
      match (if isProxy then h.proxy_request_handler req config sock
             else h.request_handler req config sock) with
      | .error _ =>
        respondPhase fs config isProxy none (h :: executed) (fwd ++ [h.id])
          (generate_error_response fs 500 config none)
      | .ok o =>
        let sock2 : SocketData :=
          match o.new_remote_address with
          | some a => { sock with remote_addr := a }
          | none => sock
        match o.response with
        | some r =>
          respondPhase fs config isProxy o.headers (h :: executed) (fwd ++ [h.id]) r
        | none =>
          match o.status with
          | some s =>
            respondPhase fs config isProxy o.headers (h :: executed) (fwd ++ [h.id])
              (generate_error_response fs s config o.headers)
          | none =>
            match o.request with
            | some r2 =>
              chainWalk fs config isProxy isWebsocket upgrade sock2 r2 o.auth_user
                (h :: executed) (fwd ++ [h.id]) rest
            | none =>
              respondPhase fs config isProxy none (h :: executed) (fwd ++ [h.id])
                (generate_error_response fs 404 config none)

/-- The CONNECT dispatch (lines 697-897): select the first handler
advertising does_connect_proxy_requests; none yields 501; a missing
request-target authority yields 400; otherwise a detached tunnel task is
spawned and an empty-body 200 (the builder default status) is returned
immediately. All three responses get customHeaders and the Server header. -/
def connectDispatch (_fs : FileSystem) (config : ServerConfig) (req : Request)
    (handlers : List Handler) : PipelineResult :=
  match handlers.find? (fun h => h.does_connect_proxy_requests) with
  | some _ =>
    match req.uriAuthority with
    | some _ =>
      ⟨finalizeResponse config { status := 200, headers := [], body := BodyKind.empty },
       [], [], true, false, false, false⟩
    | none =>
      ⟨finalizeResponse config { status := 400, headers := [], body := BodyKind.empty },
       [], [], false, false, false, false⟩
  | none =>
    ⟨finalizeResponse config { status := 501, headers := [], body := BodyKind.empty },
     [], [], false, false, false, false⟩

/-- is_proxy_request (lines 169-174): on HTTP/2 and HTTP/3 a CONNECT with a
URI host; on earlier versions any URI with a host (absolute form). -/
def isProxyRequest (req : Request) : Bool :=
  match req.version with
  | .h2 | .h3 => req.method == "CONNECT" && req.uriHost.isSome
  | _ => req.uriHost.isSome

/-- The dispatch phase of request_handler_wrapped, entered after host
normalization, config resolution, URL sanitization and asterisk-form
handling: classify the request (is_connect_proxy_request, is_proxy_request,
is_upgrade_request) and run the CONNECT dispatch or the chain walk. -/
def requestPipeline (fs : FileSystem) (config : ServerConfig)
    (upgrade : Request → Except String Response) (sock : SocketData)
    (req : Request) (handlers : List Handler) : PipelineResult :=
  if req.method == "CONNECT" then connectDispatch fs config req handlers
  else chainWalk fs config (isProxyRequest req) req.isUpgradeRequest upgrade
    sock req none [] [] handlers

/-- ferron_common::ResponseData::builder(request).build(): pass the request
through, everything else unset. -/
def responseDataPassthrough (req : Request) : HandlerOutcome :=
  ⟨some req, none, none, none, none, none, false⟩

/-- The first element of str::split(",") on a string: the prefix before the
first comma. split always yields at least one element, so the None arm of
nth(0) in the source is unreachable and the extraction is total. -/
def firstCommaEntry (s : String) : String :=
  ⟨s.data.takeWhile (fun c => !(c == ','))⟩

/-- str::replace(" ", ""): remove every space character. -/
def removeSpaces (s : String) : String :=
  ⟨s.data.filter (fun c => !(c == ' '))⟩

/-- The X-Forwarded-For module request_handler
(src/project-karpacz/src/modules/x_forwarded_for.rs lines 37-88).
parseIpAddr models std str::parse::<IpAddr> (the external standard-library
parser), returning the canonical textual form on success. Header values are
modelled as Strings, so HeaderValue::to_str always succeeds. -/
def xff_request_handler (parseIpAddr : String → Option String)
    (config : ServerConfig) (request : Request) (socket_data : SocketData) :
    HandlerOutcome :=
  if config.enableIPSpoofing = some true then
    match headersGet request.headers "x-forwarded-for" with
    | some x_forwarded_for =>
      let prepared_remote_ip_str := removeSpaces (firstCommaEntry x_forwarded_for)
      match parseIpAddr prepared_remote_ip_str with
      | none => ⟨some request, none, none, some 400, none, none, false⟩
      | some prepared_remote_ip =>
        ⟨some request, none, none, none, none,
         some ⟨prepared_remote_ip, socket_data.remote_addr.port⟩, false⟩
    | none => responseDataPassthrough request
  else responseDataPassthrough request

/-- Rust cast of an i64 to u64 (wrapping). -/
def intAsU64 (n : Int) : Nat := (n % (2 : Int) ^ 64).toNat

/-- The deadline request_handler (src/ferron/src/request_handler.rs lines
1628-1673) wraps the pipeline in: none when the timeout config entry is
null (no tokio::time::timeout at all), otherwise as_i64 with 300000 as the
fallback for a non-integer value, cast to u64 milliseconds. -/
def timeoutDeadlineMillis (timeoutYaml : Yv) : Option Nat :=
  if timeoutYaml.isNull then none
  else some (intAsU64 (timeoutYaml.asI64.getD 300000))

/-- The observable outcome of request_handler for a pipeline run that
produces resp after pipelineMillis milliseconds: without a deadline the
response is returned; with a deadline, completing within it returns the
response and exceeding it returns the timeout error. -/
def request_handler_result (timeoutYaml : Yv) (pipelineMillis : Nat)
    (resp : Response) : Except String Response :=
  match timeoutDeadlineMillis timeoutYaml with
  | none => .ok resp
  | some d =>
    if pipelineMillis < d then .ok resp
    else .error "The client or server has timed out"

/-- The listener-address computation of server_event_loop
(src/project-karpacz/src/server.rs lines 640-707). parseSocketAddr models
std str::parse::<SocketAddr>. addr starts as the IPv6 wildcard on 80 and
addr_tls as the IPv6 wildcard on 443; an integer port must fit u16 (fatal
otherwise); a string port is parsed as a full socket address (fatal on
failure). The HTTPS fallback reads global.port (not global.sport) as a
string. -/
def server_listen_addrs (port sport : Yv)
    (parseSocketAddr : String → Option SockAddr) :
    Except String (SockAddr × SockAddr) := do
  let addr : SockAddr ←
    match port.asI64 with
    | some n =>
      if 0 ≤ n ∧ n < 65536 then pure ⟨"::", n.toNat⟩
      else throw "Invalid HTTP port"
    | none =>
      match port.asStr with
      | some s =>
        match parseSocketAddr s with
        | some a => pure a
        | none => throw "Invalid HTTP port"
      | none => pure ⟨"::", 80⟩
  let addr_tls : SockAddr ←
    match sport.asI64 with
    | some n =>
      if 0 ≤ n ∧ n < 65536 then pure ⟨"::", n.toNat⟩
      else throw "Invalid HTTPS port"
    | none =>
      match port.asStr with
      | some s =>
        match parseSocketAddr s with
        | some a => pure a
        | none => throw "Invalid HTTPS port"
      | none => pure ⟨"::", 443⟩
  return (addr, addr_tls)

/-! Basic facts about the finalization step. -/

theorem finalizeResponse_status (config : ServerConfig) (resp : Response) :
    (finalizeResponse config resp).status = resp.status := rfl

theorem finalizeResponse_body (config : ServerConfig) (resp : Response) :
    (finalizeResponse config resp).body = resp.body := rfl

theorem server_software_value_ok : headerValueOk SERVER_SOFTWARE = true := by decide

/-! Concrete fixtures used by witnesses and counterexamples. -/

/-- A filesystem on which every open fails. -/
def fsEmpty : FileSystem := ⟨fun _ => false, fun _ => none⟩

/-- A sample connection. -/
def sock0 : SocketData := ⟨⟨"192.0.2.1", 5000⟩, ⟨"203.0.113.1", 80⟩, false⟩

/-- A plain HTTP/1.1 GET in origin form. -/
def req0 : Request := ⟨"GET", .http11, none, none, false, []⟩

/-- An upgrade function that always fails (never reached in runs with no
websocket-capable handler). -/
def upg0 : Request → Except String Response := fun _ => .error "no upgrade"

/-- An empty configuration. -/
def cfg0 : ServerConfig := ⟨none, none, none, none⟩

/-- A bare 200 response a handler might produce. -/
def respPlain : Response := ⟨200, [], .handlerBody 0⟩

/-! Claim C5. -/

/-- Claim C5 counterexample: with the timeout configuration entry unset
(null) the pipeline is awaited with no deadline at all: a pipeline lasting
1000000000 ms (far beyond the claimed 300000 ms default) still returns its
response instead of the timeout error. -/
theorem C5_counterexample :
    request_handler_result Yv.null 1000000000 respPlain = .ok respPlain ∧
      300000 < 1000000000 :=
  ⟨rfl, by decide⟩

/-- Claim C5 (amended): when the timeout entry is set, the pipeline runs
under a deadline of its integer value in milliseconds cast to u64 (300000
only when the set value is not an integer), and exceeding the deadline
yields the timeout error; when the entry is unset (null) there is no
deadline and the response is always returned. -/
theorem C5_amended (y : Yv) (d : Nat) (resp : Response) :
    (y.isNull = false →
      request_handler_result y d resp =
        if d < intAsU64 (y.asI64.getD 300000) then .ok resp
        else .error "The client or server has timed out")
    ∧ (y.isNull = true → request_handler_result y d resp = .ok resp) := by
  constructor
  · intro h
    unfold request_handler_result timeoutDeadlineMillis
    rw [h]
    simp
  · intro h
    unfold request_handler_result timeoutDeadlineMillis
    rw [h]
    simp

/-- Claim C5 witness: a configured timeout of 1000 ms with a pipeline
lasting 2000 ms produces the timeout error. -/
theorem C5_witness :
    request_handler_result (Yv.int 1000) 2000 respPlain =
      .error "The client or server has timed out" := by
  have h := (C5_amended (Yv.int 1000) 2000 respPlain).1 rfl
  rw [h, if_neg (by decide)]

/-! Claim C9. -/

/-- The external std SocketAddr string parser restricted to the one input
the C9 evaluation uses. -/
def parseSA9 : String → Option SockAddr :=
  fun s => if s == "127.0.0.1:8443" then some ⟨"127.0.0.1", 8443⟩ else none

/-- Claim C9: with global.port the string "127.0.0.1:8443" and global.sport
unset, the code derives the encrypted listener address by parsing
global.port, so the encrypted listener is 127.0.0.1:8443 instead of the
IPv6 wildcard on 443 — the encrypted listener address is derived from
`port`, which the spec flags as a bug. -/
theorem C9_https_port_bug :
    server_listen_addrs (Yv.str "127.0.0.1:8443") Yv.null parseSA9 =
      .ok (⟨"127.0.0.1", 8443⟩, ⟨"127.0.0.1", 8443⟩) ∧
      (⟨"127.0.0.1", 8443⟩ : SockAddr) ≠ ⟨"::", 443⟩ :=
  ⟨rfl, by decide⟩

/-! Claim C6. -/

theorem find?_filter_eq_none {α : Type} (p q : α → Bool) (l : List α)
    (h : ∀ x, q x = true → p x = false) : (l.filter q).find? p = none := by
  induction l with
  | nil => simp
  | cons a t ih =>
    by_cases hq : q a
    · simp [List.filter_cons, hq, h a hq, ih]
    · simp [List.filter_cons, hq, ih]

/-- The paths of the errorPages entries matching a status code: scode is an
i64 that fits u16, is a valid StatusCode (100..=999) and equals the status,
and path is a string; in configuration order. -/
def matchingErrorPagePaths (statusCode : Nat) (pages : List ErrorPageEntry) :
    List String :=
  pages.filterMap (fun e =>
    match e.scode.asI64 with
    | some n =>
      if 0 ≤ n ∧ n < 65536 then
        if 100 ≤ n ∧ n < 1000 then
          if n = (statusCode : Int) then e.path.asStr else none
        else none
      else none
    | none => none)

theorem findErrorPage_eq (fs : FileSystem) (statusCode : Nat)
    (pages : List ErrorPageEntry) :
    findErrorPage fs statusCode pages =
      ((matchingErrorPagePaths statusCode pages).find? fs.openOk).map
        (fun p => (p, fs.metadataLen p)) := by
  induction pages with
  | nil => rfl
  | cons e rest ih =>
    unfold findErrorPage
    unfold matchingErrorPagePaths at ih ⊢
    rw [List.filterMap_cons]
    cases hsc : e.scode.asI64 with
    | none => simpa only [hsc] using ih
    | some n =>
      by_cases hc1 : 0 ≤ n ∧ n < 65536
      · by_cases hc2 : 100 ≤ n ∧ n < 1000
        · by_cases hc3 : n = (statusCode : Int)
          · cases hps : e.path.asStr with
            | none => simpa only [hsc, if_pos hc1, if_pos hc2, if_pos hc3, hps] using ih
            | some p =>
              by_cases hop : fs.openOk p
              · simp only [hsc, if_pos hc1, if_pos hc2, if_pos hc3, hps, hop,
                  if_true, List.find?_cons_of_pos, Option.map_some']
              · simp only [hsc, if_pos hc1, if_pos hc2, if_pos hc3, hps]
                rw [if_neg (by simp [hop])]
                rw [List.find?_cons_of_neg _ (by simp [hop])]
                exact ih
          · simpa only [hsc, if_pos hc1, if_pos hc2, if_neg hc3] using ih
        · simpa only [hsc, if_pos hc1, if_neg hc2] using ih
      · simpa only [hsc, if_neg hc1] using ih

theorem headersGet_append_cl (h0 : HeaderMap) (v : String)
    (h : h0.find? (fun p => p.1 == "content-length") = none) :
    headersGet (h0 ++ [("content-length", v)] ++ [("content-type", "text/html")])
      "content-length" = some v := by
  unfold headersGet
  simp [List.find?_append, h]

theorem headersGet_append_no_cl (h0 : HeaderMap)
    (h : h0.find? (fun p => p.1 == "content-length") = none) :
    headersGet (h0 ++ [("content-type", "text/html")]) "content-length" = none := by
  unfold headersGet
  simp [List.find?_append, h]

/-- The copied extra headers of a synthesized error response never contain
a content-length entry. -/
theorem errorExtraHeaders_no_cl (extra : Option HeaderMap) :
    (errorExtraHeaders extra).find? (fun p => p.1 == "content-length") = none := by
  cases extra with
  | none => rfl
  | some hs =>
    apply find?_filter_eq_none
    intro x hx
    simp only [Bool.and_eq_true, Bool.not_eq_true', beq_eq_false_iff_ne] at hx
    simp [hx.2]

/-- Case analysis of generate_error_response by the errorPages lookup
outcome. -/
theorem generate_error_response_cases (fs : FileSystem) (statusCode : Nat)
    (config : ServerConfig) (extra : Option HeaderMap) :
    generate_error_response fs statusCode config extra =
      match errorPagesLookup fs statusCode config with
      | some (p, some cl) =>
        { status := statusCode,
          headers := errorExtraHeaders extra ++ [("content-length", toString cl)]
            ++ [("content-type", "text/html")],
          body := BodyKind.file p }
      | some (p, none) =>
        { status := statusCode,
          headers := errorExtraHeaders extra ++ [("content-type", "text/html")],
          body := BodyKind.file p }
      | none =>
        { status := statusCode,
          headers := errorExtraHeaders extra ++
            [("content-length", toString (generate_default_error_page statusCode
              config.serverAdministratorEmail).length)]
            ++ [("content-type", "text/html")],
          body := BodyKind.defaultPage statusCode
            config.serverAdministratorEmail } := by
  unfold generate_error_response
  cases h : errorPagesLookup fs statusCode config with
  | none => rfl
  | some pr =>
    cases pr with
    | mk p lenOpt => cases lenOpt <;> rfl

/-- Claim C6 counterexample: errorPages lists two entries matching 404, the
first entry's file opens but its stat (metadata) fails; synthesis does NOT
fall back to the second (openable, stat-able) entry — it streams the first
file and merely omits Content-Length. -/
def fs6 : FileSystem :=
  ⟨fun p => p == "pageA" || p == "pageB",
   fun p => if p == "pageB" then some 5 else none⟩

def cfg6 : ServerConfig :=
  ⟨none, some [⟨Yv.int 404, Yv.str "pageA"⟩, ⟨Yv.int 404, Yv.str "pageB"⟩],
   none, none⟩

/-- Claim C6 counterexample: on a stat failure the file whose open
succeeded is still used (with no Content-Length), instead of falling back
to the next matching entry. -/
theorem C6_counterexample :
    (generate_error_response fs6 404 cfg6 none).body = BodyKind.file "pageA" ∧
      headersGet (generate_error_response fs6 404 cfg6 none).headers
        "content-length" = none ∧
      BodyKind.file "pageA" ≠ BodyKind.file "pageB" :=
  ⟨rfl, rfl, by decide⟩

/-- Claim C6 (amended): the body comes from the first matching errorPages
entry whose open succeeds; when its stat succeeds the stat length is the
Content-Length, when its stat fails the file is still used and
Content-Length is omitted; only when no matching entry opens does the
default template body (with its length) apply. Open failure falls back to
the next matching entry; stat failure does not. -/
theorem C6_amended (fs : FileSystem) (statusCode : Nat) (config : ServerConfig)
    (extra : Option HeaderMap) (pages : List ErrorPageEntry)
    (hpages : config.errorPages = some pages) :
    (∀ p n, (matchingErrorPagePaths statusCode pages).find? fs.openOk = some p →
      fs.metadataLen p = some n →
      (generate_error_response fs statusCode config extra).body = BodyKind.file p ∧
      headersGet (generate_error_response fs statusCode config extra).headers
        "content-length" = some (toString n))
    ∧ (∀ p, (matchingErrorPagePaths statusCode pages).find? fs.openOk = some p →
      fs.metadataLen p = none →
      (generate_error_response fs statusCode config extra).body = BodyKind.file p ∧
      headersGet (generate_error_response fs statusCode config extra).headers
        "content-length" = none)
    ∧ ((matchingErrorPagePaths statusCode pages).find? fs.openOk = none →
      (generate_error_response fs statusCode config extra).body =
        BodyKind.defaultPage statusCode config.serverAdministratorEmail ∧
      headersGet (generate_error_response fs statusCode config extra).headers
        "content-length" =
        some (toString (generate_default_error_page statusCode
          config.serverAdministratorEmail).length)) := by
  have hlook : ∀ r, findErrorPage fs statusCode pages = r →
      errorPagesLookup fs statusCode config = r := by
    intro r hr
    unfold errorPagesLookup
    rw [hpages]
    exact hr
  refine ⟨?_, ?_, ?_⟩
  · intro p n hfind hmeta
    rw [generate_error_response_cases,
      hlook (some (p, some n)) (by rw [findErrorPage_eq, hfind]; simp [hmeta])]
    exact ⟨rfl, headersGet_append_cl _ _ (errorExtraHeaders_no_cl extra)⟩
  · intro p hfind hmeta
    rw [generate_error_response_cases,
      hlook (some (p, none)) (by rw [findErrorPage_eq, hfind]; simp [hmeta])]
    exact ⟨rfl, headersGet_append_no_cl _ (errorExtraHeaders_no_cl extra)⟩
  · intro hfind
    rw [generate_error_response_cases,
      hlook none (by rw [findErrorPage_eq, hfind]; rfl)]
    exact ⟨rfl, headersGet_append_cl _ _ (errorExtraHeaders_no_cl extra)⟩

/-- Claim C6 witness: for a 404 with one matching entry whose file opens
and stats at length 5, the synthesized response streams that file with
Content-Length 5. -/
theorem C6_witness :
    (generate_error_response fs6 404
        ⟨none, some [⟨Yv.int 404, Yv.str "pageB"⟩], none, none⟩ none).body =
      BodyKind.file "pageB" ∧
    headersGet (generate_error_response fs6 404
        ⟨none, some [⟨Yv.int 404, Yv.str "pageB"⟩], none, none⟩ none).headers
      "content-length" = some (toString 5) :=
  (C6_amended fs6 404 ⟨none, some [⟨Yv.int 404, Yv.str "pageB"⟩], none, none⟩
    none [⟨Yv.int 404, Yv.str "pageB"⟩] rfl).1 "pageB" 5 (by decide) rfl

/-! Claim C8. -/

/-- Claim C8: the X-Forwarded-For request handler honors enableIPSpoofing:
with spoofing enabled and an x-forwarded-for header present, the first
comma-separated entry with spaces removed is parsed as an IP address; on
success the outcome passes the request through with a new remote address
combining that IP with the connection's remote port; on parse failure the
outcome carries status 400; with spoofing not set to true, or the header
absent, the request passes through with no new remote address. -/
theorem C8_x_forwarded_for (parseIpAddr : String → Option String)
    (config : ServerConfig) (request : Request) (socket_data : SocketData) :
    (config.enableIPSpoofing = some true →
      ∀ xff, headersGet request.headers "x-forwarded-for" = some xff →
        (∀ ip, parseIpAddr (removeSpaces (firstCommaEntry xff)) = some ip →
          xff_request_handler parseIpAddr config request socket_data =
            ⟨some request, none, none, none, none,
             some ⟨ip, socket_data.remote_addr.port⟩, false⟩)
        ∧ (parseIpAddr (removeSpaces (firstCommaEntry xff)) = none →
          xff_request_handler parseIpAddr config request socket_data =
            ⟨some request, none, none, some 400, none, none, false⟩))
    ∧ (config.enableIPSpoofing ≠ some true →
        xff_request_handler parseIpAddr config request socket_data =
          responseDataPassthrough request)
    ∧ (headersGet request.headers "x-forwarded-for" = none →
        xff_request_handler parseIpAddr config request socket_data =
          responseDataPassthrough request) := by
  refine ⟨?_, ?_, ?_⟩
  · intro hspoof xff hxff
    constructor
    · intro ip hip
      unfold xff_request_handler
      rw [if_pos hspoof, hxff]
      simp only [hip]
    · intro hip
      unfold xff_request_handler
      rw [if_pos hspoof, hxff]
      simp only [hip]
  · intro hspoof
    unfold xff_request_handler
    rw [if_neg hspoof]
  · intro hxff
    unfold xff_request_handler
    by_cases hspoof : config.enableIPSpoofing = some true
    · rw [if_pos hspoof, hxff]
    · rw [if_neg hspoof]

/-- The external std IpAddr parser restricted to the one address the C8
witness uses. -/
def parseIpW : String → Option String :=
  fun s => if s == "203.0.113.7" then some "203.0.113.7" else none

/-- A request carrying a two-hop x-forwarded-for header. -/
def reqXff : Request :=
  ⟨"GET", .http11, none, none, false,
   [("x-forwarded-for", "203.0.113.7, 10.0.0.1")]⟩

/-- A configuration with IP spoofing enabled. -/
def cfgXff : ServerConfig := ⟨none, none, none, some true⟩

/-- Claim C8 witness: with spoofing enabled, the first hop 203.0.113.7 of
the header becomes the new remote address on the connection's remote port
5000. -/
theorem C8_witness :
    xff_request_handler parseIpW cfgXff reqXff sock0 =
      ⟨some reqXff, none, none, none, none,
       some ⟨"203.0.113.7", 5000⟩, false⟩ :=
  ((C8_x_forwarded_for parseIpW cfgXff reqXff sock0).1 rfl
    "203.0.113.7, 10.0.0.1" rfl).1 "203.0.113.7" (by decide)

/-! Claim C7. -/

/-- Claim C7: for a CONNECT request, if no handler advertises CONNECT
capability the pipeline returns 501 (and spawns no tunnel); if the first
CONNECT-capable handler is selected but the request target has no
authority, it returns 400 (no tunnel); otherwise a detached tunnel task is
spawned and an empty-body 200 is returned immediately. -/
theorem C7_connect_dispatch (fs : FileSystem) (config : ServerConfig)
    (upgrade : Request → Except String Response) (sock : SocketData)
    (req : Request) (handlers : List Handler)
    (hmeth : req.method = "CONNECT") :
    (handlers.find? (fun h => h.does_connect_proxy_requests) = none →
      (requestPipeline fs config upgrade sock req handlers).response.status = 501 ∧
      (requestPipeline fs config upgrade sock req handlers).spawnedConnect = false)
    ∧ (∀ h, handlers.find? (fun h => h.does_connect_proxy_requests) = some h →
      req.uriAuthority = none →
      (requestPipeline fs config upgrade sock req handlers).response.status = 400 ∧
      (requestPipeline fs config upgrade sock req handlers).spawnedConnect = false)
    ∧ (∀ h a, handlers.find? (fun h => h.does_connect_proxy_requests) = some h →
      req.uriAuthority = some a →
      (requestPipeline fs config upgrade sock req handlers).response.status = 200 ∧
      (requestPipeline fs config upgrade sock req handlers).response.body =
        BodyKind.empty ∧
      (requestPipeline fs config upgrade sock req handlers).spawnedConnect = true) := by
  have hc : (req.method == "CONNECT") = true := by simp [hmeth]
  refine ⟨?_, ?_, ?_⟩
  · intro hfind
    unfold requestPipeline
    rw [if_pos hc]
    simp [connectDispatch, hfind, finalizeResponse_status, finalizeResponse_body]
  · intro h hfind hauth
    unfold requestPipeline
    rw [if_pos hc]
    simp [connectDispatch, hfind, hauth, finalizeResponse_status, finalizeResponse_body]
  · intro h a hfind hauth
    unfold requestPipeline
    rw [if_pos hc]
    simp [connectDispatch, hfind, hauth, finalizeResponse_status, finalizeResponse_body]

/-- A handler advertising CONNECT capability. -/
def hConn : Handler :=
  ⟨21, true, fun _ _ => false,
   fun rq _ _ => .ok (responseDataPassthrough rq),
   fun rq _ _ => .ok (responseDataPassthrough rq),
   fun r => .ok r, fun r => .ok r⟩

/-- CONNECT example.com:443 in authority form. -/
def reqConnect : Request :=
  ⟨"CONNECT", .http11, some "example.com", some "example.com:443", false, []⟩

/-- Claim C7 witness: a CONNECT with an authority and a CONNECT-capable
handler yields an immediate empty-body 200 with a spawned tunnel task. -/
theorem C7_witness :
    (requestPipeline fsEmpty cfg0 upg0 sock0 reqConnect [hConn]).response.status
      = 200 ∧
    (requestPipeline fsEmpty cfg0 upg0 sock0 reqConnect [hConn]).response.body
      = BodyKind.empty ∧
    (requestPipeline fsEmpty cfg0 upg0 sock0 reqConnect [hConn]).spawnedConnect
      = true :=
  (C7_connect_dispatch fsEmpty cfg0 upg0 sock0 reqConnect [hConn] rfl).2.2
    hConn "example.com:443" rfl rfl

/-! Claim C2. -/

theorem insertCustomHeader_get_preserved (hm : HeaderMap) (nameY valY : Yv)
    (k w : String) (h : headersGet hm k = some w) :
    headersGet (insertCustomHeader hm nameY valY) k = some w := by
  unfold insertCustomHeader
  cases hn : nameY.asStr with
  | none => exact h
  | some name =>
    cases hv : valY.asStr with
    | none => exact h
    | some val =>
      dsimp only
      by_cases hc : headersContainsKey hm name = true
      · rw [if_pos hc]
        exact h
      · rw [if_neg hc]
        by_cases hok : (headerValueOk val && headerNameOk name) = true
        · rw [if_pos hok]
          have hne : name ≠ k := by
            intro he
            rw [he] at hc
            exact hc (headersContainsKey_of_get hm k w h)
          exact (headersGet_insert_ne hm name val k hne).trans h
        · rw [if_neg hok]
          exact h

theorem mergeFold_get_preserved (entries : List (Yv × Yv)) (hm : HeaderMap)
    (k w : String) (h : headersGet hm k = some w) :
    headersGet (entries.foldl (fun acc p => insertCustomHeader acc p.1 p.2) hm)
      k = some w := by
  induction entries generalizing hm with
  | nil => exact h
  | cons e rest ih =>
    exact ih _ (insertCustomHeader_get_preserved hm e.1 e.2 k w h)

theorem insertCustomHeader_skip (hm : HeaderMap) (nameY valY : Yv) (k : String)
    (hne : nameY.asStr ≠ some k) :
    headersGet (insertCustomHeader hm nameY valY) k = headersGet hm k ∧
    headersContainsKey (insertCustomHeader hm nameY valY) k =
      headersContainsKey hm k := by
  unfold insertCustomHeader
  cases hn : nameY.asStr with
  | none => exact ⟨rfl, rfl⟩
  | some name =>
    have hnk : name ≠ k := by
      intro he
      rw [hn, he] at hne
      exact hne rfl
    cases hv : valY.asStr with
    | none => exact ⟨rfl, rfl⟩
    | some val =>
      dsimp only
      by_cases hc : headersContainsKey hm name = true
      · rw [if_pos hc]
        exact ⟨rfl, rfl⟩
      · rw [if_neg hc]
        by_cases hok : (headerValueOk val && headerNameOk name) = true
        · rw [if_pos hok]
          exact ⟨headersGet_insert_ne hm name val k hnk,
            headersContainsKey_insert_ne hm name val k hnk⟩
        · rw [if_neg hok]
          exact ⟨rfl, rfl⟩

theorem mergeFold_inserts (post : List (Yv × Yv)) (k v : String)
    (hnok : headerNameOk k = true) (hvok : headerValueOk v = true) :
    ∀ (pre : List (Yv × Yv)) (hm : HeaderMap),
      (∀ e ∈ pre, e.1.asStr ≠ some k) →
      headersContainsKey hm k = false →
      headersGet ((pre ++ (Yv.str k, Yv.str v) :: post).foldl
        (fun acc p => insertCustomHeader acc p.1 p.2) hm) k = some v := by
  intro pre
  induction pre with
  | nil =>
    intro hm _ hnc
    simp only [List.nil_append, List.foldl_cons]
    have hstep : insertCustomHeader hm (Yv.str k) (Yv.str v) =
        headersInsert hm k v := by
      unfold insertCustomHeader
      simp only [Yv.asStr]
      rw [if_neg (by simp [hnc]), if_pos (by simp [hvok, hnok])]
    rw [hstep]
    exact mergeFold_get_preserved post _ k v (headersGet_insert_self hm k v)
  | cons e pre2 ih =>
    intro hm hpre hnc
    simp only [List.cons_append, List.foldl_cons]
    have hskip := insertCustomHeader_skip hm e.1 e.2 k (hpre e (by simp))
    exact ih _ (fun e2 he2 => hpre e2 (List.mem_cons_of_mem e he2))
      (by rw [hskip.2]; exact hnc)

/-- Claim C2 counterexample: a configured customHeaders entry
server=CustomServer on a run with no handlers: the final response carries
the product token in Server, not the configured value, because the Server
insertion runs after (and unconditionally overwrites) the customHeaders
merge. -/
def cfgServerHdr : ServerConfig :=
  ⟨none, none, some [(Yv.str "server", Yv.str "CustomServer")], none⟩

/-- Claim C2 counterexample: the customHeaders entry for the server name is
overwritten by the fixed product token even though the handler chain never
set a Server header. -/
theorem C2_counterexample :
    headersGet (requestPipeline fsEmpty cfgServerHdr upg0 sock0 req0
      []).response.headers "server" ≠ some "CustomServer" ∧
    headersGet (requestPipeline fsEmpty cfgServerHdr upg0 sock0 req0
      []).response.headers "server" = some SERVER_SOFTWARE :=
  ⟨by decide, rfl⟩

/-- Claim C2 (amended): for a configured customHeaders entry k=v whose name
and value are valid, whose name differs from server, and which is the first
entry with that name, the finalization step applied to each emitted
response adds k=v when the response lacks k and preserves the existing
value when the response has k; the server name is excepted because the
Server header is overwritten with the product token right after the merge
(and post-processing handlers run after finalization may alter headers
further). -/
theorem C2_amended (config : ServerConfig) (entries pre post : List (Yv × Yv))
    (k v : String) (resp : Response)
    (hch : config.customHeaders = some entries)
    (hsplit : entries = pre ++ (Yv.str k, Yv.str v) :: post)
    (hpre : ∀ e ∈ pre, e.1.asStr ≠ some k)
    (hnok : headerNameOk k = true) (hvok : headerValueOk v = true)
    (hks : k ≠ "server") :
    (headersContainsKey resp.headers k = false →
      headersGet (finalizeResponse config resp).headers k = some v)
    ∧ (∀ w, headersGet resp.headers k = some w →
      headersGet (finalizeResponse config resp).headers k = some w) := by
  have hserver_ne : "server" ≠ k := fun he => hks he.symm
  have hhd : (finalizeResponse config resp).headers =
      insertServerHeader (mergeCustomHeaders config.customHeaders resp.headers) :=
    rfl
  have hmg : mergeCustomHeaders config.customHeaders resp.headers =
      entries.foldl (fun acc p => insertCustomHeader acc p.1 p.2) resp.headers := by
    unfold mergeCustomHeaders
    rw [hch]
  constructor
  · intro hnc
    rw [hhd]
    unfold insertServerHeader
    rw [if_pos server_software_value_ok,
      headersGet_insert_ne _ _ _ _ hserver_ne, hmg, hsplit]
    exact mergeFold_inserts post k v hnok hvok pre resp.headers hpre hnc
  · intro w hw
    rw [hhd]
    unfold insertServerHeader
    rw [if_pos server_software_value_ok,
      headersGet_insert_ne _ _ _ _ hserver_ne, hmg]
    exact mergeFold_get_preserved entries resp.headers k w hw

/-- A configuration with one ordinary customHeaders entry. -/
def cfgCH : ServerConfig :=
  ⟨none, none, some [(Yv.str "x-custom", Yv.str "1")], none⟩

/-- Claim C2 witness: the configured x-custom=1 entry lands on a response
that lacks it. -/
theorem C2_witness :
    headersGet (finalizeResponse cfgCH respPlain).headers "x-custom" = some "1" :=
  (C2_amended cfgCH [(Yv.str "x-custom", Yv.str "1")] [] []
    "x-custom" "1" respPlain rfl rfl (by intro e he; cases he)
    (by decide) (by decide) (by decide)).1 rfl

/-! Claim C1. -/

/-- A response-modifying entry point preserves the value of a header on
every successful invocation. -/
def preservesHeader (k : String) (f : Response → Except String Response) : Prop :=
  ∀ r r2, f r = .ok r2 → headersGet r2.headers k = headersGet r.headers k

/-- Both backward entry points of a handler preserve a header. -/
def preservesBackward (k : String) (h : Handler) : Prop :=
  preservesHeader k h.response_modifying_handler ∧
  preservesHeader k h.proxy_response_modifying_handler

theorem finalizeResponse_get_server (config : ServerConfig) (resp : Response) :
    headersGet (finalizeResponse config resp).headers "server" =
      some SERVER_SOFTWARE := by
  have hhd : (finalizeResponse config resp).headers =
      insertServerHeader (mergeCustomHeaders config.customHeaders resp.headers) :=
    rfl
  rw [hhd]
  unfold insertServerHeader
  rw [if_pos server_software_value_ok]
  exact headersGet_insert_self _ _ _

theorem postProcessLoop_get_server (fs : FileSystem) (config : ServerConfig)
    (isProxy : Bool) (extra : Option HeaderMap) :
    ∀ (stack : List Handler) (resp : Response),
      (∀ h ∈ stack, preservesBackward "server" h) →
      headersGet resp.headers "server" = some SERVER_SOFTWARE →
      headersGet (postProcessLoop fs config isProxy extra stack
        resp).response.headers "server" = some SERVER_SOFTWARE := by
  intro stack
  induction stack with
  | nil =>
    intro resp _ hresp
    exact hresp
  | cons h rest ih =>
    intro resp hstack hresp
    have hboth : ∀ r r2,
        (if isProxy then h.proxy_response_modifying_handler r
         else h.response_modifying_handler r) = .ok r2 →
        headersGet r2.headers "server" = headersGet r.headers "server" := by
      intro r r2 hc
      by_cases hip : isProxy = true
      · rw [if_pos hip] at hc
        exact (hstack h (List.mem_cons_self h rest)).2 r r2 hc
      · rw [if_neg hip] at hc
        exact (hstack h (List.mem_cons_self h rest)).1 r r2 hc
    unfold postProcessLoop
    cases hcall : (if isProxy then h.proxy_response_modifying_handler resp
        else h.response_modifying_handler resp) with
    | ok r =>
      dsimp only
      exact ih r (fun h2 hh2 => hstack h2 (List.mem_cons_of_mem h hh2))
        ((hboth resp r hcall).trans hresp)
    | error e =>
      dsimp only
      exact finalizeResponse_get_server config _

theorem respondPhase_get_server (fs : FileSystem) (config : ServerConfig)
    (isProxy : Bool) (extra : Option HeaderMap) (stack : List Handler)
    (fwd : List Nat) (resp : Response)
    (hstack : ∀ h ∈ stack, preservesBackward "server" h) :
    headersGet (respondPhase fs config isProxy extra stack fwd
      resp).response.headers "server" = some SERVER_SOFTWARE := by
  unfold respondPhase
  dsimp only
  exact postProcessLoop_get_server fs config isProxy extra stack _ hstack
    (finalizeResponse_get_server config resp)

theorem chainWalk_get_server (fs : FileSystem) (config : ServerConfig)
    (isProxy isWebsocket : Bool) (upgrade : Request → Except String Response) :
    ∀ (remaining : List Handler) (sock : SocketData) (req : Request)
      (auth : Option String) (executed : List Handler) (fwd : List Nat),
      (∀ h ∈ executed, preservesBackward "server" h) →
      (∀ h ∈ remaining, preservesBackward "server" h) →
      headersGet (chainWalk fs config isProxy isWebsocket upgrade sock req auth
        executed fwd remaining).response.headers "server" =
        some SERVER_SOFTWARE := by
  intro remaining
  induction remaining with
  | nil =>
    intro sock req auth executed fwd hex _
    unfold chainWalk
    exact respondPhase_get_server fs config isProxy none executed fwd _ hex
  | cons h rest ih =>
    intro sock req auth executed fwd hex hrem
    have hpush : ∀ h2 ∈ (h :: executed), preservesBackward "server" h2 := by
      intro h2 hh2
      rcases List.mem_cons.mp hh2 with he | hmem
      · rw [he]
        exact hrem h (List.mem_cons_self h rest)
      · exact hex h2 hmem
    unfold chainWalk
    by_cases hws : (isWebsocket && h.does_websocket_requests config sock) = true
    · rw [if_pos hws]
      cases hu : upgrade req with
      | ok resp =>
        dsimp only
        exact finalizeResponse_get_server config resp
      | error e =>
        dsimp only
        exact finalizeResponse_get_server config _
    · rw [if_neg hws]
      cases hcall : (if isProxy then h.proxy_request_handler req config sock
          else h.request_handler req config sock) with
      | error e =>
        dsimp only
        exact respondPhase_get_server fs config isProxy none (h :: executed) _ _
          hpush
      | ok o =>
        dsimp only
        cases hresp : o.response with
        | some r =>
          dsimp only
          exact respondPhase_get_server fs config isProxy o.headers
            (h :: executed) _ r hpush
        | none =>
          dsimp only
          cases hstat : o.status with
          | some s =>
            dsimp only
            exact respondPhase_get_server fs config isProxy o.headers
              (h :: executed) _ _ hpush
          | none =>
            dsimp only
            cases hreq : o.request with
            | some r2 =>
              dsimp only
              exact ih _ r2 o.auth_user (h :: executed) _ hpush
                (fun h2 hh2 => hrem h2 (List.mem_cons_of_mem h hh2))
            | none =>
              dsimp only
              exact respondPhase_get_server fs config isProxy none
                (h :: executed) _ _ hpush

/-- Claim C1 (amended): every response leaving the embedded dispatch phase
carries Server = SERVER_SOFTWARE provided every handler's response-modifying
entry points preserve the Server header; the pipeline itself sets the
header on every synthesized and handler-produced response (and on every
collapsed 500) before returning, but it does so before post-processing, so
a post-processing handler may alter it afterwards. -/
theorem C1_amended (fs : FileSystem) (config : ServerConfig)
    (upgrade : Request → Except String Response) (sock : SocketData)
    (req : Request) (handlers : List Handler)
    (hpres : ∀ h ∈ handlers, preservesBackward "server" h) :
    headersGet (requestPipeline fs config upgrade sock req
      handlers).response.headers "server" = some SERVER_SOFTWARE := by
  unfold requestPipeline
  by_cases hconn : (req.method == "CONNECT") = true
  · rw [if_pos hconn]
    unfold connectDispatch
    cases hf : handlers.find? (fun h => h.does_connect_proxy_requests) with
    | some h =>
      cases ha : req.uriAuthority with
      | some a =>
        dsimp only
        exact finalizeResponse_get_server config _
      | none =>
        dsimp only
        exact finalizeResponse_get_server config _
    | none =>
      dsimp only
      exact finalizeResponse_get_server config _
  · rw [if_neg hconn]
    exact chainWalk_get_server fs config (isProxyRequest req)
      req.isUpgradeRequest upgrade handlers sock req none [] []
      (by intro h hh; cases hh) hpres

/-- A handler that answers 200 on the forward pass and replaces the
response with a bare header-less one during post-processing. -/
def hStrip : Handler :=
  ⟨1, false, fun _ _ => false,
   fun _ _ _ => .ok ⟨none, none, some respPlain, none, none, none, false⟩,
   fun _ _ _ => .ok ⟨none, none, some respPlain, none, none, none, false⟩,
   fun _ => .ok respPlain,
   fun _ => .ok respPlain⟩

/-- Claim C1 counterexample: a post-processing handler that replaces the
response with a header-less one makes the final response leave the pipeline
with no Server header at all, because the pipeline sets Server before
post-processing and never re-checks it. -/
theorem C1_counterexample :
    headersGet (requestPipeline fsEmpty cfg0 upg0 sock0 req0
      [hStrip]).response.headers "server" = none := rfl

/-- A handler that answers 200 and leaves responses unchanged during
post-processing. -/
def hOkResp : Handler :=
  ⟨2, false, fun _ _ => false,
   fun _ _ _ => .ok ⟨none, none, some respPlain, none, none, none, false⟩,
   fun _ _ _ => .ok ⟨none, none, some respPlain, none, none, none, false⟩,
   fun r => .ok r,
   fun r => .ok r⟩

/-- Claim C1 witness: with an identity post-processor, the final response
carries Server = SERVER_SOFTWARE. -/
theorem C1_witness :
    headersGet (requestPipeline fsEmpty cfg0 upg0 sock0 req0
      [hOkResp]).response.headers "server" = some SERVER_SOFTWARE :=
  C1_amended fsEmpty cfg0 upg0 sock0 req0 [hOkResp]
    (by
      intro h hh
      rw [List.mem_singleton] at hh
      rw [hh]
      exact ⟨fun r r2 hc => by cases hc; rfl, fun r r2 hc => by cases hc; rfl⟩)

/-! Claim C3. -/

/-- The action the spec assigns to a handler outcome. -/
inductive ChainAction where
  | toPostProcessing : Response → ChainAction
  | synthesizeError : Nat → ChainAction
  | continueChain : Request → ChainAction
  | halt : ChainAction
deriving DecidableEq

/-- Modelled from the spec sentence: precedence on the consumer side is
response > status > request > end-of-chain. -/
def outcomePrimary (o : HandlerOutcome) : ChainAction :=
  match o.response with
  | some r => ChainAction.toPostProcessing r
  | none =>
    match o.status with
    | some s => ChainAction.synthesizeError s
    | none =>
      match o.request with
      | some r2 => ChainAction.continueChain r2
      | none => ChainAction.halt

theorem outcomePrimary_eq_toPost (o : HandlerOutcome) (r : Response) :
    outcomePrimary o = ChainAction.toPostProcessing r ↔ o.response = some r := by
  obtain ⟨q, a, rsp, st, hd, nra, pt⟩ := o
  cases rsp <;> cases st <;> cases q <;> simp [outcomePrimary]

theorem outcomePrimary_eq_synth (o : HandlerOutcome) (s : Nat) :
    outcomePrimary o = ChainAction.synthesizeError s ↔
      o.response = none ∧ o.status = some s := by
  obtain ⟨q, a, rsp, st, hd, nra, pt⟩ := o
  cases rsp <;> cases st <;> cases q <;> simp [outcomePrimary]

theorem outcomePrimary_eq_continue (o : HandlerOutcome) (r2 : Request) :
    outcomePrimary o = ChainAction.continueChain r2 ↔
      o.response = none ∧ o.status = none ∧ o.request = some r2 := by
  obtain ⟨q, a, rsp, st, hd, nra, pt⟩ := o
  cases rsp <;> cases st <;> cases q <;> simp [outcomePrimary]

theorem outcomePrimary_eq_halt (o : HandlerOutcome) :
    outcomePrimary o = ChainAction.halt ↔
      o.response = none ∧ o.status = none ∧ o.request = none := by
  obtain ⟨q, a, rsp, st, hd, nra, pt⟩ := o
  cases rsp <;> cases st <;> cases q <;> simp [outcomePrimary]

/-- Claim C3: on the forward chain walk (no upgrade in play) the consumer
of a successful handler outcome follows the spec precedence
response > status > request > end-of-chain: a response goes to
post-processing as-is, a bare status synthesizes an error response with the
outcome's extra headers, a bare request continues the chain with it (and
the possibly rewritten remote address), and both a fully-empty outcome and
an exhausted handler list synthesize a 404. -/
theorem C3_precedence (fs : FileSystem) (config : ServerConfig)
    (isProxy : Bool) (upgrade : Request → Except String Response)
    (sock : SocketData) (req : Request) (auth : Option String)
    (executed : List Handler) (fwd : List Nat) :
    (chainWalk fs config isProxy false upgrade sock req auth executed fwd [] =
      respondPhase fs config isProxy none executed fwd
        (generate_error_response fs 404 config none))
    ∧ ∀ (h : Handler) (rest : List Handler) (o : HandlerOutcome),
      (if isProxy then h.proxy_request_handler req config sock
       else h.request_handler req config sock) = .ok o →
      ((∀ r, outcomePrimary o = ChainAction.toPostProcessing r →
        chainWalk fs config isProxy false upgrade sock req auth executed fwd
            (h :: rest) =
          respondPhase fs config isProxy o.headers (h :: executed)
            (fwd ++ [h.id]) r)
      ∧ (∀ s, outcomePrimary o = ChainAction.synthesizeError s →
        chainWalk fs config isProxy false upgrade sock req auth executed fwd
            (h :: rest) =
          respondPhase fs config isProxy o.headers (h :: executed)
            (fwd ++ [h.id]) (generate_error_response fs s config o.headers))
      ∧ (∀ r2, outcomePrimary o = ChainAction.continueChain r2 →
        chainWalk fs config isProxy false upgrade sock req auth executed fwd
            (h :: rest) =
          chainWalk fs config isProxy false upgrade
            (match o.new_remote_address with
             | some a => { sock with remote_addr := a }
             | none => sock) r2 o.auth_user (h :: executed) (fwd ++ [h.id])
            rest)
      ∧ (outcomePrimary o = ChainAction.halt →
        chainWalk fs config isProxy false upgrade sock req auth executed fwd
            (h :: rest) =
          respondPhase fs config isProxy none (h :: executed) (fwd ++ [h.id])
            (generate_error_response fs 404 config none))) := by
  constructor
  · rfl
  · intro h rest o hcall
    have hstep : chainWalk fs config isProxy false upgrade sock req auth
        executed fwd (h :: rest) =
        (let sock2 : SocketData :=
          match o.new_remote_address with
          | some a => { sock with remote_addr := a }
          | none => sock
        match o.response with
        | some r =>
          respondPhase fs config isProxy o.headers (h :: executed)
            (fwd ++ [h.id]) r
        | none =>
          match o.status with
          | some s =>
            respondPhase fs config isProxy o.headers (h :: executed)
              (fwd ++ [h.id]) (generate_error_response fs s config o.headers)
          | none =>
            match o.request with
            | some r2 =>
              chainWalk fs config isProxy false upgrade sock2 r2 o.auth_user
                (h :: executed) (fwd ++ [h.id]) rest
            | none =>
              respondPhase fs config isProxy none (h :: executed)
                (fwd ++ [h.id]) (generate_error_response fs 404 config none)) := by
      conv_lhs => rw [chainWalk]
      rw [if_neg (by simp), hcall]
    refine ⟨?_, ?_, ?_, ?_⟩
    · intro r hr
      have hresp := (outcomePrimary_eq_toPost o r).mp hr
      rw [hstep]
      dsimp only
      rw [hresp]
    · intro s hs
      obtain ⟨hresp, hstat⟩ := (outcomePrimary_eq_synth o s).mp hs
      rw [hstep]
      dsimp only
      rw [hresp, hstat]
    · intro r2 hr2
      obtain ⟨hresp, hstat, hreq⟩ := (outcomePrimary_eq_continue o r2).mp hr2
      rw [hstep]
      dsimp only
      rw [hresp, hstat, hreq]
    · intro hh
      obtain ⟨hresp, hstat, hreq⟩ := (outcomePrimary_eq_halt o).mp hh
      rw [hstep]
      dsimp only
      rw [hresp, hstat, hreq]

/-- The outcome hOkResp returns on the forward pass. -/
def outcomeResp : HandlerOutcome :=
  ⟨none, none, some respPlain, none, none, none, false⟩

/-- Claim C3 witness: a handler whose outcome carries a response sends the
pipeline to post-processing with that response. -/
theorem C3_witness :
    chainWalk fsEmpty cfg0 false false upg0 sock0 req0 none [] [] [hOkResp] =
      respondPhase fsEmpty cfg0 false none [hOkResp] [2] respPlain :=
  (((C3_precedence fsEmpty cfg0 false upg0 sock0 req0 none [] []).2 hOkResp []
    outcomeResp rfl).1) respPlain rfl

/-! Claim C4. -/

theorem postProcessLoop_trace_isPrefix (fs : FileSystem) (config : ServerConfig)
    (isProxy : Bool) (extra : Option HeaderMap) :
    ∀ (stack : List Handler) (resp : Response),
      (postProcessLoop fs config isProxy extra stack resp).trace <+:
        stack.map (fun h => h.id) := by
  intro stack
  induction stack with
  | nil =>
    intro resp
    exact List.nil_prefix
  | cons h rest ih =>
    intro resp
    unfold postProcessLoop
    cases hcall : (if isProxy then h.proxy_response_modifying_handler resp
        else h.response_modifying_handler resp) with
    | ok r =>
      dsimp only
      obtain ⟨t, ht⟩ := ih r
      exact ⟨t, by rw [List.map_cons, List.cons_append, ht]⟩
    | error e =>
      dsimp only
      exact ⟨rest.map (fun h => h.id), by simp⟩

theorem postProcessLoop_trace_of_ok (fs : FileSystem) (config : ServerConfig)
    (isProxy : Bool) (extra : Option HeaderMap) :
    ∀ (stack : List Handler) (resp : Response),
      (postProcessLoop fs config isProxy extra stack resp).collapsed = false →
      (postProcessLoop fs config isProxy extra stack resp).trace =
        stack.map (fun h => h.id) := by
  intro stack
  induction stack with
  | nil =>
    intro resp _
    rfl
  | cons h rest ih =>
    intro resp hnc
    unfold postProcessLoop at hnc ⊢
    cases hcall : (if isProxy then h.proxy_response_modifying_handler resp
        else h.response_modifying_handler resp) with
    | ok r =>
      rw [hcall] at hnc
      dsimp only at hnc ⊢
      rw [List.map_cons, ih r hnc]
    | error e =>
      rw [hcall] at hnc
      simp at hnc

theorem postProcessLoop_collapsed_response (fs : FileSystem)
    (config : ServerConfig) (isProxy : Bool) (extra : Option HeaderMap) :
    ∀ (stack : List Handler) (resp : Response),
      (postProcessLoop fs config isProxy extra stack resp).collapsed = true →
      (postProcessLoop fs config isProxy extra stack resp).response =
        finalizeResponse config (generate_error_response fs 500 config extra) := by
  intro stack
  induction stack with
  | nil =>
    intro resp hc
    cases hc
  | cons h rest ih =>
    intro resp hc
    unfold postProcessLoop at hc ⊢
    cases hcall : (if isProxy then h.proxy_response_modifying_handler resp
        else h.response_modifying_handler resp) with
    | ok r =>
      rw [hcall] at hc
      dsimp only at hc ⊢
      exact ih r hc
    | error e =>
      rw [hcall] at hc

theorem respondPhase_trace (fs : FileSystem) (config : ServerConfig)
    (isProxy : Bool) (extra : Option HeaderMap) (stack : List Handler)
    (fwd : List Nat) (resp : Response)
    (hstack : stack.map (fun h => h.id) = fwd.reverse) :
    (respondPhase fs config isProxy extra stack fwd resp).backwardTrace <+:
      (respondPhase fs config isProxy extra stack fwd resp).forwardTrace.reverse
    ∧ ((respondPhase fs config isProxy extra stack fwd resp).postProcessed
        = true →
      (respondPhase fs config isProxy extra stack fwd resp).collapsed = false →
      (respondPhase fs config isProxy extra stack fwd resp).backwardTrace =
        (respondPhase fs config isProxy extra stack fwd resp).forwardTrace.reverse)
    ∧ ((respondPhase fs config isProxy extra stack fwd resp).collapsed = true →
      (respondPhase fs config isProxy extra stack fwd resp).response.status
        = 500) := by
  unfold respondPhase
  dsimp only
  refine ⟨?_, ?_, ?_⟩
  · rw [← hstack]
    exact postProcessLoop_trace_isPrefix fs config isProxy extra stack _
  · intro _ hnc
    rw [← hstack]
    exact postProcessLoop_trace_of_ok fs config isProxy extra stack _ hnc
  · intro hc
    rw [postProcessLoop_collapsed_response fs config isProxy extra stack _ hc]
    rfl

theorem chainWalk_trace_inv (fs : FileSystem) (config : ServerConfig)
    (isProxy isWebsocket : Bool) (upgrade : Request → Except String Response) :
    ∀ (remaining : List Handler) (sock : SocketData) (req : Request)
      (auth : Option String) (executed : List Handler) (fwd : List Nat),
      executed.map (fun h => h.id) = fwd.reverse →
      ((chainWalk fs config isProxy isWebsocket upgrade sock req auth executed
          fwd remaining).backwardTrace <+:
        (chainWalk fs config isProxy isWebsocket upgrade sock req auth executed
          fwd remaining).forwardTrace.reverse
      ∧ ((chainWalk fs config isProxy isWebsocket upgrade sock req auth executed
          fwd remaining).postProcessed = true →
        (chainWalk fs config isProxy isWebsocket upgrade sock req auth executed
          fwd remaining).collapsed = false →
        (chainWalk fs config isProxy isWebsocket upgrade sock req auth executed
          fwd remaining).backwardTrace =
          (chainWalk fs config isProxy isWebsocket upgrade sock req auth executed
            fwd remaining).forwardTrace.reverse)
      ∧ ((chainWalk fs config isProxy isWebsocket upgrade sock req auth executed
          fwd remaining).collapsed = true →
        (chainWalk fs config isProxy isWebsocket upgrade sock req auth executed
          fwd remaining).response.status = 500)) := by
  intro remaining
  induction remaining with
  | nil =>
    intro sock req auth executed fwd hinv
    unfold chainWalk
    exact respondPhase_trace fs config isProxy none executed fwd _ hinv
  | cons h rest ih =>
    intro sock req auth executed fwd hinv
    have hinv2 : (h :: executed).map (fun h => h.id) = (fwd ++ [h.id]).reverse := by
      simp [List.reverse_append, hinv]
    unfold chainWalk
    by_cases hws : (isWebsocket && h.does_websocket_requests config sock) = true
    · rw [if_pos hws]
      cases hu : upgrade req with
      | ok resp =>
        dsimp only
        refine ⟨ List.nil_prefix, ?_, ?_⟩
        · intro hpp
          simp at hpp
        · intro hc
          simp at hc
      | error e =>
        dsimp only
        refine ⟨ List.nil_prefix, ?_, ?_⟩
        · intro hpp
          simp at hpp
        · intro hc
          simp at hc
    · rw [if_neg hws]
      cases hcall : (if isProxy then h.proxy_request_handler req config sock
          else h.request_handler req config sock) with
      | error e =>
        dsimp only
        exact respondPhase_trace fs config isProxy none (h :: executed) _ _ hinv2
      | ok o =>
        dsimp only
        cases hresp : o.response with
        | some r =>
          dsimp only
          exact respondPhase_trace fs config isProxy o.headers (h :: executed)
            _ r hinv2
        | none =>
          dsimp only
          cases hstat : o.status with
          | some s =>
            dsimp only
            exact respondPhase_trace fs config isProxy o.headers (h :: executed)
              _ _ hinv2
          | none =>
            dsimp only
            cases hreq : o.request with
            | some r2 =>
              dsimp only
              exact ih _ r2 o.auth_user (h :: executed) _ hinv2
            | none =>
              dsimp only
              exact respondPhase_trace fs config isProxy none (h :: executed)
                _ _ hinv2

/-- Claim C4 (amended): in every run of the dispatch phase the
post-processing invocations form a prefix of the reverse of the
forward-pass execution order; on every run that reaches post-processing and
has no failing invocation they are exactly that reverse order; and when an
invocation fails, a 500 response is synthesized for the client and the
remaining handlers in the stack are not invoked (the trace stops at the
failing handler). Upgrade short-circuits (WebSocket handshakes) return
without performing any post-processing. -/
theorem C4_amended (fs : FileSystem) (config : ServerConfig)
    (upgrade : Request → Except String Response) (sock : SocketData)
    (req : Request) (handlers : List Handler) :
    (requestPipeline fs config upgrade sock req handlers).backwardTrace <+:
      (requestPipeline fs config upgrade sock req handlers).forwardTrace.reverse
    ∧ ((requestPipeline fs config upgrade sock req handlers).postProcessed
        = true →
      (requestPipeline fs config upgrade sock req handlers).collapsed = false →
      (requestPipeline fs config upgrade sock req handlers).backwardTrace =
        (requestPipeline fs config upgrade sock req
          handlers).forwardTrace.reverse)
    ∧ ((requestPipeline fs config upgrade sock req handlers).collapsed = true →
      (requestPipeline fs config upgrade sock req
        handlers).response.status = 500) := by
  unfold requestPipeline
  by_cases hconn : (req.method == "CONNECT") = true
  · rw [if_pos hconn]
    unfold connectDispatch
    cases hf : handlers.find? (fun h => h.does_connect_proxy_requests) with
    | some h =>
      cases ha : req.uriAuthority with
      | some a =>
        dsimp only
        refine ⟨ List.nil_prefix, ?_, ?_⟩
        · intro hpp
          simp at hpp
        · intro hc
          simp at hc
      | none =>
        dsimp only
        refine ⟨ List.nil_prefix, ?_, ?_⟩
        · intro hpp
          simp at hpp
        · intro hc
          simp at hc
    | none =>
      dsimp only
      refine ⟨ List.nil_prefix, ?_, ?_⟩
      · intro hpp
        simp at hpp
      · intro hc
        simp at hc
  · rw [if_neg hconn]
    exact chainWalk_trace_inv fs config (isProxyRequest req)
      req.isUpgradeRequest upgrade handlers sock req none [] [] rfl

/-- A handler that passes the request through unchanged on the forward pass
and leaves responses unchanged during post-processing. -/
def hCont : Handler :=
  ⟨11, false, fun _ _ => false,
   fun rq _ _ => .ok (responseDataPassthrough rq),
   fun rq _ _ => .ok (responseDataPassthrough rq),
   fun r => .ok r, fun r => .ok r⟩

/-- A WebSocket handshake response. -/
def wsResp : Response := ⟨101, [("upgrade", "websocket")], BodyKind.empty⟩

/-- An upgrade function that always completes the handshake. -/
def upgW : Request → Except String Response := fun _ => .ok wsResp

/-- A handler advertising WebSocket capability. -/
def hWs : Handler :=
  ⟨12, false, fun _ _ => true,
   fun rq _ _ => .ok (responseDataPassthrough rq),
   fun rq _ _ => .ok (responseDataPassthrough rq),
   fun r => .ok r, fun r => .ok r⟩

/-- An upgrade (WebSocket) request. -/
def reqUpg : Request := ⟨"GET", .http11, none, none, true, []⟩

/-- Claim C4 counterexample: a WebSocket upgrade reached after handler 11
already executed on the forward pass returns the handshake with zero
post-processing invocations, not the reverse order [11] the claim requires
for that forward pass. -/
theorem C4_counterexample :
    (requestPipeline fsEmpty cfg0 upgW sock0 reqUpg
      [hCont, hWs]).forwardTrace = [11] ∧
    (requestPipeline fsEmpty cfg0 upgW sock0 reqUpg
      [hCont, hWs]).backwardTrace = [] :=
  ⟨rfl, rfl⟩

/-- Claim C4 witness: a run in which handler 11 continues, handler 2
responds and both post-process successfully has backward invocations
exactly the reverse of the forward order. -/
theorem C4_witness :
    (requestPipeline fsEmpty cfg0 upg0 sock0 req0
      [hCont, hOkResp]).backwardTrace =
      (requestPipeline fsEmpty cfg0 upg0 sock0 req0
        [hCont, hOkResp]).forwardTrace.reverse :=
  (C4_amended fsEmpty cfg0 upg0 sock0 req0 [hCont, hOkResp]).2.1 rfl rfl

/-! Claim C10. -/

/-- A handler whose forward entry point (plain or proxy, as selected by
isProxy) always succeeds with a pure continue outcome: no response, no
status, a request present. -/
def alwaysContinues (isProxy : Bool) (config : ServerConfig) (h : Handler) : Prop :=
  ∀ rq s, match (if isProxy then h.proxy_request_handler rq config s
      else h.request_handler rq config s) with
    | .ok o => o.response = none ∧ o.status = none ∧ o.request.isSome = true
    | .error _ => False

theorem chainWalk_websocket_shortcut (fs : FileSystem) (config : ServerConfig)
    (isProxy : Bool) (upgrade : Request → Except String Response)
    (hw : Handler) (rest : List Handler) (resp : Response)
    (hwcap : ∀ s, hw.does_websocket_requests config s = true)
    (hupg : ∀ rq, upgrade rq = .ok resp) :
    ∀ (pre : List Handler) (sock : SocketData) (req : Request)
      (auth : Option String) (executed : List Handler) (fwd : List Nat),
      (∀ h ∈ pre, ∀ s, h.does_websocket_requests config s = false) →
      (∀ h ∈ pre, alwaysContinues isProxy config h) →
      chainWalk fs config isProxy true upgrade sock req auth executed fwd
        (pre ++ hw :: rest) =
        ⟨finalizeResponse config resp, fwd ++ pre.map (fun h => h.id), [],
         false, true, false, false⟩ := by
  intro pre
  induction pre with
  | nil =>
    intro sock req auth executed fwd _ _
    rw [List.nil_append]
    conv_lhs => rw [chainWalk]
    rw [if_pos (by simp [hwcap sock]), hupg req]
    simp
  | cons h pre2 ih =>
    intro sock req auth executed fwd hws hcont
    rw [List.cons_append]
    conv_lhs => rw [chainWalk]
    rw [if_neg (by simp [hws h (List.mem_cons_self h pre2) sock])]
    have hc := hcont h (List.mem_cons_self h pre2) req sock
    cases hcall : (if isProxy then h.proxy_request_handler req config sock
        else h.request_handler req config sock) with
    | error e =>
      rw [hcall] at hc
      exact absurd hc (by simp)
    | ok o =>
      rw [hcall] at hc
      obtain ⟨hresp, hstat, hreqs⟩ := hc
      obtain ⟨r2, hr2⟩ := Option.isSome_iff_exists.mp hreqs
      dsimp only
      rw [hresp, hstat, hr2]
      dsimp only
      rw [ih _ r2 o.auth_user (h :: executed) (fwd ++ [h.id])
        (fun h2 hh2 => hws h2 (List.mem_cons_of_mem h hh2))
        (fun h2 hh2 => hcont h2 (List.mem_cons_of_mem h hh2))]
      simp

/-- Claim C10: an upgrade request that reaches a WebSocket-capable handler
after earlier handlers have executed on the forward pass returns the
finalized handshake response (customHeaders merge and Server header still
applied by finalizeResponse) with an empty post-processing trace: none of
the executed handlers' response-modifying entry points run, and the
detached WebSocket task is spawned. -/
theorem C10_websocket_skips_post (fs : FileSystem) (config : ServerConfig)
    (upgrade : Request → Except String Response) (sock : SocketData)
    (req : Request) (pre : List Handler) (hw : Handler) (rest : List Handler)
    (resp : Response)
    (hmeth : req.method ≠ "CONNECT") (hupgreq : req.isUpgradeRequest = true)
    (hpre_ws : ∀ h ∈ pre, ∀ s, h.does_websocket_requests config s = false)
    (hpre_cont : ∀ h ∈ pre, alwaysContinues (isProxyRequest req) config h)
    (hwcap : ∀ s, hw.does_websocket_requests config s = true)
    (hupg : ∀ rq, upgrade rq = .ok resp) :
    requestPipeline fs config upgrade sock req (pre ++ hw :: rest) =
      ⟨finalizeResponse config resp, pre.map (fun h => h.id), [],
       false, true, false, false⟩ := by
  unfold requestPipeline
  rw [if_neg (by simp [hmeth]), hupgreq]
  rw [chainWalk_websocket_shortcut fs config (isProxyRequest req) upgrade hw
    rest resp hwcap hupg pre sock req none [] [] hpre_ws hpre_cont]
  simp

/-- Claim C10 witness: handler 11 executes and continues, the
WebSocket-capable handler 12 triggers the handshake, and the result is the
finalized handshake response with no post-processing invocations. -/
theorem C10_witness :
    requestPipeline fsEmpty cfg0 upgW sock0 reqUpg [hCont, hWs] =
      ⟨finalizeResponse cfg0 wsResp, [11], [], false, true, false, false⟩ :=
  C10_websocket_skips_post fsEmpty cfg0 upgW sock0 reqUpg [hCont] hWs [] wsResp
    (by decide) rfl
    (by
      intro h hh
      rw [List.mem_singleton] at hh
      rw [hh]
      intro s
      rfl)
    (by
      intro h hh
      rw [List.mem_singleton] at hh
      rw [hh]
      intro rq s
      exact ⟨rfl, rfl, rfl⟩)
    (fun s => rfl) (fun rq => rfl)

end Karpacz
